import Mathlib

/-!
# corp.CorpClient.UploadFromReader

A shallow embedding of `src/corp/client_upload.go`.

Conventions of the embedding.

* A Go `[]byte`, the content of a reader and the bytes of `bodyBuf` are lists of
  bytes (`Bytes`), so a file of any content can be uploaded.  A Go `string`
  (names, token, URL, boundary, content type) is a Lean `String`, standing for
  its UTF-8 encoding: `toBytes` gives the bytes written for it, and
  `url.QueryEscape` works on them.
* A Go `error` is its message (`Error := String`); `nil` is `none`.
* Everything the routine calls but does not define is an explicit part of the
  environment: the token source and the HTTP client (`CorpClient`), the JSON
  decoder and the reflective `ErrCode` accessor of the caller's response type
  (`ResponseType`), the reader of the file content (`Reader`), the boundary
  drawn by `multipart.NewWriter` and the errors the multipart writer may
  report (`WriterEnv`).  The environment is stateful: every call takes the
  current world `σ` and returns the next one.
* The routine keeps a ghost `trace` of its calls into the environment, so that
  the number, order and arguments of the calls can be stated.
* `goto RETRY` is a loop; the loop is modelled with fuel, one unit of fuel per
  pass through the label, and termination is a theorem.
-/

namespace Corp

/-! ## Strings, errors -/

/-- Go `error`, identified with its message. -/
abbrev Error := String

/-- Go `[]byte`. -/
abbrev Bytes := List UInt8

/-! ## `net/url`: `QueryEscape` -/

/-- The `upperhex` table of `net/url`. -/
def upperhex : List Char := "0123456789ABCDEF".toList

/-- Hexadecimal digit `upperhex[n]`. -/
def hexDigit (n : Nat) : Char := upperhex.getD n '0'

/-- UTF-8 encoding of a code point, as a list of byte values. -/
def utf8Bytes (c : Char) : List Nat :=
  let n := c.toNat
  if n < 0x80 then [n]
  else if n < 0x800 then [0xC0 + n / 0x40, 0x80 + n % 0x40]
  else if n < 0x10000 then [0xE0 + n / 0x1000, 0x80 + n / 0x40 % 0x40, 0x80 + n % 0x40]
  else [0xF0 + n / 0x40000, 0x80 + n / 0x1000 % 0x40, 0x80 + n / 0x40 % 0x40, 0x80 + n % 0x40]

/-- The bytes of a Go string: its UTF-8 encoding. -/
def toBytes (s : String) : Bytes := (s.toList.flatMap utf8Bytes).map UInt8.ofNat

/-- Go `shouldEscape(c, encodeQueryComponent)`: only the unreserved characters
of RFC 3986 §2.3 are left alone. -/
def shouldEscape (c : Char) : Bool :=
  if ('a' ≤ c ∧ c ≤ 'z') ∨ ('A' ≤ c ∧ c ≤ 'Z') ∨ ('0' ≤ c ∧ c ≤ '9') then false
  else if c = '-' ∨ c = '_' ∨ c = '.' ∨ c = '~' then false
  else true

/-- The three output bytes `%XY` for one escaped byte. -/
def escapeByte (b : Nat) : List Char := ['%', hexDigit (b / 16), hexDigit (b % 16)]

/-- Output of `escape` for one character of the input. -/
def escapeChar (c : Char) : List Char :=
  if c = ' ' then ['+']
  else if shouldEscape c then (utf8Bytes c).flatMap escapeByte
  else [c]

/-- Go `url.QueryEscape`. -/
def QueryEscape (s : String) : String := ⟨s.toList.flatMap escapeChar⟩

/-! ## `mime/multipart`: `Writer` -/

/-- State of a `multipart.Writer` over `bodyBuf`: the bytes written so far, the
boundary, and whether a part has been created (`lastpart != nil`). -/
structure Writer where
  buf : Bytes
  boundary : String
  lastpart : Bool
deriving DecidableEq, Repr

/-- Go `multipart.NewWriter(bodyBuf)` after `bodyBuf.Reset()`; the boundary is
the random string the writer draws. -/
def NewWriter (boundary : String) : Writer := ⟨[], boundary, false⟩

/-- The backslash character. -/
def backslash : Char := Char.ofNat 92

/-- The double-quote character. -/
def dquote : Char := Char.ofNat 34

/-- The carriage-return character. -/
def carriageReturn : Char := Char.ofNat 13

/-- The line-feed character. -/
def lineFeed : Char := Char.ofNat 10

/-- One character under the `quoteEscaper` of `mime/multipart`, a
`strings.NewReplacer` with the pairs backslash to two backslashes, double quote
to backslash and double quote, CR to `%0D`, LF to `%0A`. -/
def escapeQuoteChar (c : Char) : List Char :=
  if c = backslash then [backslash, backslash]
  else if c = dquote then [backslash, dquote]
  else if c = carriageReturn then ['%', '0', 'D']
  else if c = lineFeed then ['%', '0', 'A']
  else [c]

/-- Go `escapeQuotes` of `mime/multipart`: `quoteEscaper.Replace(s)`. -/
def escapeQuotes (s : String) : String := ⟨s.toList.flatMap escapeQuoteChar⟩

/-- One header line `key: value\r\n`. -/
def headerLine (kv : String × String) : String := kv.1 ++ ": " ++ kv.2 ++ "\r\n"

/-- Go `Writer.CreatePart`, for a header given as its key-sorted list of lines:
the delimiter (preceded by `\r\n` unless this is the first part), the header
lines, an empty line. -/
def Writer.CreatePart (w : Writer) (header : List (String × String)) : Writer :=
  let delim := if w.lastpart then "\r\n--" ++ w.boundary ++ "\r\n" else "--" ++ w.boundary ++ "\r\n"
  { w with
    buf := w.buf ++ toBytes (delim ++ String.join (header.map headerLine) ++ "\r\n")
    lastpart := true }

/-- Go `Writer.CreateFormFile`. -/
def Writer.CreateFormFile (w : Writer) (fieldname filename : String) : Writer :=
  w.CreatePart
    [("Content-Disposition",
        "form-data; name=\"" ++ escapeQuotes fieldname ++ "\"; filename=\"" ++ escapeQuotes filename ++ "\""),
     ("Content-Type", "application/octet-stream")]

/-- Go `Writer.CreateFormField`. -/
def Writer.CreateFormField (w : Writer) (fieldname : String) : Writer :=
  w.CreatePart [("Content-Disposition", "form-data; name=\"" ++ escapeQuotes fieldname ++ "\"")]

/-- Writing bytes to the current part. -/
def Writer.Write (w : Writer) (p : Bytes) : Writer := { w with buf := w.buf ++ p }

/-- Go `Writer.Close`: the closing delimiter. -/
def Writer.Close (w : Writer) : Writer :=
  { w with buf := w.buf ++ toBytes ("\r\n--" ++ w.boundary ++ "--\r\n") }

/-- The `tspecials` of RFC 2045 and the space, the characters that make
`FormDataContentType` quote the boundary. -/
def tspecials : List Char := "()<>@,;:".toList ++ [backslash, dquote] ++ "/[]?= ".toList

/-- Go `Writer.FormDataContentType`: the boundary is put between double quotes
when it contains one of the `tspecials` (a boundary drawn by `NewWriter` is
hexadecimal and never does). -/
def Writer.FormDataContentType (w : Writer) : String :=
  if w.boundary.toList.any (fun c => c ∈ tspecials) then
    "multipart/form-data; boundary=" ++ "\"" ++ w.boundary ++ "\""
  else
    "multipart/form-data; boundary=" ++ w.boundary

/-! ## The environment of `UploadFromReader` -/

/-- Go `*http.Response`, as far as the routine looks at it. -/
structure HttpResponse where
  StatusCode : Int
  Status : String
  Body : String
deriving DecidableEq, Repr

/-- Go `http.StatusOK`. -/
def StatusOK : Int := 200

/-- The package constants `ErrCodeOK`, `ErrCodeTimeout` and
`ErrCodeInvalidCredential`; their declarations are not part of the file, so
they are parameters. -/
structure ErrCodes where
  ErrCodeOK : Int
  ErrCodeTimeout : Int
  ErrCodeInvalidCredential : Int
deriving DecidableEq, Repr

/-- The receiver `clt *CorpClient`: its token source and its HTTP client, as
functions of the world `σ`. `Post url contentType body` is
`clt.HttpClient.Post`, with `body` the bytes the reader passed to it gives. -/
structure CorpClient (σ : Type) where
  Token : σ → Except Error String × σ
  TokenRefresh : σ → Except Error String × σ
  Post : String → String → Bytes → σ → Except Error HttpResponse × σ

/-- What the routine needs of the caller's response type `R`:
`Decode body r` is `json.NewDecoder(body).Decode(response)` run on a structure
whose current content is `r` (it gives the error, if any, and the content
afterwards); `ErrCode r` is
`reflect.ValueOf(response).Elem().FieldByName("ErrCode").Int()`. -/
structure ResponseType (R : Type) where
  Decode : String → R → Option Error × R
  ErrCode : R → Int

/-- The `io.Reader` with the file content: `io.Copy` copies `data` and then ends
with `err` (`none`: end of file reached). -/
structure Reader where
  data : Bytes
  err : Option Error
deriving DecidableEq, Repr

/-- The boundary drawn by `multipart.NewWriter`, and the error each call on the
multipart writer reports, if any. -/
structure WriterEnv where
  boundary : String
  createFormFileErr : Option Error
  createFormFieldErr : Option Error
  part2WriteErr : Option Error
  closeErr : Option Error
deriving DecidableEq, Repr

/-- A call into the environment. -/
inductive Event where
  | Token
  | TokenRefresh
  | Post (url contentType : String) (body : Bytes)
deriving DecidableEq, Repr

/-- What a call of `UploadFromReader` leaves behind: the returned `err`, the
content of the caller's `response` structure, the world, and the calls made. -/
structure Outcome (σ R : Type) where
  err : Option Error
  response : R
  world : σ
  trace : List Event

/-- Number of HTTP POSTs in a trace. -/
def countPosts : List Event → Nat
  | [] => 0
  | Event.Post _ _ _ :: t => countPosts t + 1
  | _ :: t => countPosts t

/-- Number of `TokenRefresh` calls in a trace. -/
def countRefresh : List Event → Nat
  | [] => 0
  | Event.TokenRefresh :: t => countRefresh t + 1
  | _ :: t => countRefresh t

/-! ## `UploadFromReader` -/

/-- Lines 52-74: the multipart body is built in `bodyBuf`; the result is the
writer after `Close`, or the first error. -/
def buildBody (env : WriterEnv) (part1FieldName part1FileName : String)
    (part1ValueReader : Reader) (part2FieldName : String) (part2Value : Bytes) :
    Except Error Writer :=
  let multipartWriter := NewWriter env.boundary
  match env.createFormFileErr with
  | some err => .error err
  | none =>
    let multipartWriter := multipartWriter.CreateFormFile part1FieldName part1FileName
    let multipartWriter := multipartWriter.Write part1ValueReader.data
    match part1ValueReader.err with
    | some err => .error err
    | none =>
      if part2FieldName ≠ "" ∧ part2Value.length > 0 then
        match env.createFormFieldErr with
        | some err => .error err
        | none =>
          let multipartWriter := multipartWriter.CreateFormField part2FieldName
          match env.part2WriteErr with
          | some err => .error err
          | none =>
            let multipartWriter := multipartWriter.Write part2Value
            match env.closeErr with
            | some err => .error err
            | none => .ok multipartWriter.Close
      else
        match env.closeErr with
        | some err => .error err
        | none => .ok multipartWriter.Close

/-- Line 85. -/
def finalURL (incompleteURL token : String) : String := incompleteURL ++ QueryEscape token

/-- Lines 84-130: the code from the label `RETRY` on. One unit of fuel is spent
each time control passes the label. -/
def retryLoop {σ R : Type} (codes : ErrCodes) (rt : ResponseType R) (clt : CorpClient σ)
    (incompleteURL contentType : String) (bodyBytes : Bytes) :
    Nat → Bool → String → σ → R → List Event → Option (Outcome σ R)
  | 0, _, _, _, _, _ => none
  | fuel + 1, hasRetried, token, world, response, trace =>
    let trace := trace ++ [Event.Post (finalURL incompleteURL token) contentType bodyBytes]
    match clt.Post (finalURL incompleteURL token) contentType bodyBytes world with
    | (.error err, world) => some ⟨some err, response, world, trace⟩
    | (.ok httpResp, world) =>
      if httpResp.StatusCode ≠ StatusOK then
        some ⟨some ("http.Status: " ++ httpResp.Status), response, world, trace⟩
      else
        match rt.Decode httpResp.Body response with
        | (some err, response) => some ⟨some err, response, world, trace⟩
        | (none, response) =>
          let ErrCode := rt.ErrCode response
          if ErrCode = codes.ErrCodeOK then
            some ⟨none, response, world, trace⟩
          else if ErrCode = codes.ErrCodeTimeout ∨ ErrCode = codes.ErrCodeInvalidCredential then
            if !hasRetried then
              let trace := trace ++ [Event.TokenRefresh]
              match clt.TokenRefresh world with
              | (.error err, world) => some ⟨some err, response, world, trace⟩
              | (.ok token, world) =>
                retryLoop codes rt clt incompleteURL contentType bodyBytes
                  fuel true token world response trace
            else
              some ⟨none, response, world, trace⟩
          else
            some ⟨none, response, world, trace⟩

/-- Go `(*CorpClient).UploadFromReader`, lines 41-130. `response` is the content
of the caller's structure before the call. -/
def UploadFromReader {σ R : Type} (fuel : Nat) (codes : ErrCodes) (env : WriterEnv)
    (rt : ResponseType R) (clt : CorpClient σ)
    (incompleteURL part1FieldName part1FileName : String) (part1ValueReader : Reader)
    (part2FieldName : String) (part2Value : Bytes) (response : R) (world : σ) : Option (Outcome σ R) :=
  match buildBody env part1FieldName part1FileName part1ValueReader part2FieldName part2Value with
  | .error err => some ⟨some err, response, world, []⟩
  | .ok multipartWriter =>
    let bodyBytes := multipartWriter.buf
    match clt.Token world with
    | (.error err, world) => some ⟨some err, response, world, [Event.Token]⟩
    | (.ok token, world) =>
      retryLoop codes rt clt incompleteURL multipartWriter.FormDataContentType bodyBytes
        fuel false token world response [Event.Token]

/-! ## The body layout of the doc comment (lines 23-32), line by line -/

/-- Lines 23-26 of the layout: the boundary line, the two header lines of a
file part, the empty line. -/
def fileHeader (boundary fieldName fileName : String) : String :=
  "--" ++ boundary ++ "\r\n" ++
  "Content-Disposition: form-data; name=\"" ++ escapeQuotes fieldName ++
    "\"; filename=\"" ++ escapeQuotes fileName ++ "\"" ++ "\r\n" ++
  "Content-Type: application/octet-stream" ++ "\r\n" ++
  "\r\n"

/-- Lines 28-30 of the layout: the boundary line, the header line of a plain
form field, the empty line. -/
def fieldHeader (boundary fieldName : String) : String :=
  "--" ++ boundary ++ "\r\n" ++
  "Content-Disposition: form-data; name=\"" ++ escapeQuotes fieldName ++ "\"" ++ "\r\n" ++
  "\r\n"

/-- The file part: its header, the file content, the end of the line. -/
def filePart (boundary fieldName fileName : String) (content : Bytes) : Bytes :=
  toBytes (fileHeader boundary fieldName fileName) ++ content ++ toBytes "\r\n"

/-- The plain form-field part: its header, the value, the end of the line. -/
def fieldPart (boundary fieldName : String) (value : Bytes) : Bytes :=
  toBytes (fieldHeader boundary fieldName) ++ value ++ toBytes "\r\n"

/-- The closing boundary line. -/
def closingBoundary (boundary : String) : Bytes := toBytes ("--" ++ boundary ++ "--" ++ "\r\n")

/-! ## A concrete environment, for evaluating the routine -/

/-- A response type of the shape the SDK uses:
`struct { ErrCode int; ErrMsg string }`. -/
structure DemoResponse where
  ErrCode : Int
  ErrMsg : String
deriving DecidableEq, Repr

/-- A decoder for `DemoResponse` that knows a handful of bodies. As
`encoding/json` does, it leaves a field alone when the body has no key for it. -/
def demoDecode (body : String) (r : DemoResponse) : Option Error × DemoResponse :=
  if body = "\x7b\x7d" then (none, r)
  else if body = "\x7b\"errcode\":0\x7d" then (none, { r with ErrCode := 0 })
  else if body = "\x7b\"errcode\":42001\x7d" then (none, { r with ErrCode := 42001 })
  else if body = "\x7b\"errcode\":40001\x7d" then (none, { r with ErrCode := 40001 })
  else if body = "\x7b\"errcode\":40003\x7d" then (none, { r with ErrCode := 40003 })
  else if body = "\x7b\"errmsg\":\"ok\"\x7d" then (none, { r with ErrMsg := "ok" })
  else (some "invalid character", r)

/-- The response type `DemoResponse`. -/
def demoResponseType : ResponseType DemoResponse := ⟨demoDecode, DemoResponse.ErrCode⟩

/-- Error codes used for evaluation. -/
def demoCodes : ErrCodes := ⟨0, 42001, 40001⟩

/-- A client whose world is the list of results its HTTP client will still give,
and whose token source gives fixed results. -/
def scriptedClient (token refreshed : Except Error String) :
    CorpClient (List (Except Error HttpResponse)) where
  Token w := (token, w)
  TokenRefresh w := (refreshed, w)
  Post _ _ _ w :=
    match w with
    | [] => (.error "connection refused", [])
    | r :: rest => (r, rest)

/-- A writer environment without errors. -/
def demoWriterEnv : WriterEnv := ⟨"B", none, none, none, none⟩

/-- A 200 response with the given body. -/
def ok200 (body : String) : Except Error HttpResponse := .ok ⟨200, "200 OK", body⟩

/-! ## Lemmas on the retry loop -/

section Attempt

variable {σ R : Type} {codes : ErrCodes} {rt : ResponseType R} {clt : CorpClient σ}
  {incompleteURL contentType : String} {bodyBytes : Bytes}

/-- The POST of an attempt fails at the transport level. -/
theorem retryLoop_post_error {fuel : Nat} {hasRetried : Bool} {token : String} {world : σ}
    {response : R} {trace : List Event} {e : Error} {w2 : σ}
    (hp : clt.Post (finalURL incompleteURL token) contentType bodyBytes world = (.error e, w2)) :
    retryLoop codes rt clt incompleteURL contentType bodyBytes
        (fuel + 1) hasRetried token world response trace =
      some ⟨some e, response, w2,
        trace ++ [Event.Post (finalURL incompleteURL token) contentType bodyBytes]⟩ := by
  simp [retryLoop, hp]

/-- The POST of an attempt comes back with a status other than 200. -/
theorem retryLoop_bad_status {fuel : Nat} {hasRetried : Bool} {token : String} {world : σ}
    {response : R} {trace : List Event} {resp : HttpResponse} {w2 : σ}
    (hp : clt.Post (finalURL incompleteURL token) contentType bodyBytes world = (.ok resp, w2))
    (hs : resp.StatusCode ≠ StatusOK) :
    retryLoop codes rt clt incompleteURL contentType bodyBytes
        (fuel + 1) hasRetried token world response trace =
      some ⟨some ("http.Status: " ++ resp.Status), response, w2,
        trace ++ [Event.Post (finalURL incompleteURL token) contentType bodyBytes]⟩ := by
  simp [retryLoop, hp, hs]

/-- The body of an attempt cannot be decoded. -/
theorem retryLoop_decode_error {fuel : Nat} {hasRetried : Bool} {token : String} {world : σ}
    {response : R} {trace : List Event} {resp : HttpResponse} {w2 : σ} {e : Error} {r1 : R}
    (hp : clt.Post (finalURL incompleteURL token) contentType bodyBytes world = (.ok resp, w2))
    (hs : resp.StatusCode = StatusOK)
    (hd : rt.Decode resp.Body response = (some e, r1)) :
    retryLoop codes rt clt incompleteURL contentType bodyBytes
        (fuel + 1) hasRetried token world response trace =
      some ⟨some e, r1, w2,
        trace ++ [Event.Post (finalURL incompleteURL token) contentType bodyBytes]⟩ := by
  simp [retryLoop, hp, hs, hd]

/-- An attempt whose decoded `ErrCode` is `ErrCodeOK`, or is neither of the two
token codes: `return` with `err == nil`. -/
theorem retryLoop_plain {fuel : Nat} {hasRetried : Bool} {token : String} {world : σ}
    {response : R} {trace : List Event} {resp : HttpResponse} {w2 : σ} {r1 : R}
    (hp : clt.Post (finalURL incompleteURL token) contentType bodyBytes world = (.ok resp, w2))
    (hs : resp.StatusCode = StatusOK)
    (hd : rt.Decode resp.Body response = (none, r1))
    (hc : rt.ErrCode r1 = codes.ErrCodeOK ∨
      (rt.ErrCode r1 ≠ codes.ErrCodeTimeout ∧ rt.ErrCode r1 ≠ codes.ErrCodeInvalidCredential)) :
    retryLoop codes rt clt incompleteURL contentType bodyBytes
        (fuel + 1) hasRetried token world response trace =
      some ⟨none, r1, w2,
        trace ++ [Event.Post (finalURL incompleteURL token) contentType bodyBytes]⟩ := by
  rcases hc with hc | ⟨h1, h2⟩
  · simp [retryLoop, hp, hs, hd, hc]
  · simp [retryLoop, hp, hs, hd, h1, h2]

/-- A token code on the attempt made after the retry: `fallthrough` to the plain
`return`. -/
theorem retryLoop_token_code_retried {fuel : Nat} {token : String} {world : σ}
    {response : R} {trace : List Event} {resp : HttpResponse} {w2 : σ} {r1 : R}
    (hp : clt.Post (finalURL incompleteURL token) contentType bodyBytes world = (.ok resp, w2))
    (hs : resp.StatusCode = StatusOK)
    (hd : rt.Decode resp.Body response = (none, r1)) :
    retryLoop codes rt clt incompleteURL contentType bodyBytes
        (fuel + 1) true token world response trace =
      some ⟨none, r1, w2,
        trace ++ [Event.Post (finalURL incompleteURL token) contentType bodyBytes]⟩ := by
  simp [retryLoop, hp, hs, hd]

/-- A token code on the first attempt, and `TokenRefresh` fails. -/
theorem retryLoop_refresh_error {fuel : Nat} {token : String} {world : σ}
    {response : R} {trace : List Event} {resp : HttpResponse} {w2 : σ} {r1 : R} {e : Error} {w3 : σ}
    (hp : clt.Post (finalURL incompleteURL token) contentType bodyBytes world = (.ok resp, w2))
    (hs : resp.StatusCode = StatusOK)
    (hd : rt.Decode resp.Body response = (none, r1))
    (hok : rt.ErrCode r1 ≠ codes.ErrCodeOK)
    (hc : rt.ErrCode r1 = codes.ErrCodeTimeout ∨ rt.ErrCode r1 = codes.ErrCodeInvalidCredential)
    (hr : clt.TokenRefresh w2 = (.error e, w3)) :
    retryLoop codes rt clt incompleteURL contentType bodyBytes
        (fuel + 1) false token world response trace =
      some ⟨some e, r1, w3,
        trace ++ [Event.Post (finalURL incompleteURL token) contentType bodyBytes,
          Event.TokenRefresh]⟩ := by
  simp [retryLoop, hp, hs, hd, hok, hc, hr]

/-- A token code on the first attempt, and `TokenRefresh` succeeds: `goto RETRY`
with the new token, the structure as decoded so far, and `hasRetried` set. -/
theorem retryLoop_goto {fuel : Nat} {token : String} {world : σ}
    {response : R} {trace : List Event} {resp : HttpResponse} {w2 : σ} {r1 : R}
    {token2 : String} {w3 : σ}
    (hp : clt.Post (finalURL incompleteURL token) contentType bodyBytes world = (.ok resp, w2))
    (hs : resp.StatusCode = StatusOK)
    (hd : rt.Decode resp.Body response = (none, r1))
    (hok : rt.ErrCode r1 ≠ codes.ErrCodeOK)
    (hc : rt.ErrCode r1 = codes.ErrCodeTimeout ∨ rt.ErrCode r1 = codes.ErrCodeInvalidCredential)
    (hr : clt.TokenRefresh w2 = (.ok token2, w3)) :
    retryLoop codes rt clt incompleteURL contentType bodyBytes
        (fuel + 1) false token world response trace =
      retryLoop codes rt clt incompleteURL contentType bodyBytes
        fuel true token2 w3 r1
        (trace ++ [Event.Post (finalURL incompleteURL token) contentType bodyBytes,
          Event.TokenRefresh]) := by
  simp [retryLoop, hp, hs, hd, hok, hc, hr]

/-- After the retry, one pass through the label ends the call, with exactly one
more POST and nothing else. -/
theorem retryLoop_retried (fuel : Nat) (token : String) (world : σ)
    (response : R) (trace : List Event) :
    ∃ out, retryLoop codes rt clt incompleteURL contentType bodyBytes
        (fuel + 1) true token world response trace = some out ∧
      out.trace = trace ++ [Event.Post (finalURL incompleteURL token) contentType bodyBytes] := by
  rcases hp : clt.Post (finalURL incompleteURL token) contentType bodyBytes world
    with ⟨e | resp, w2⟩
  · exact ⟨_, retryLoop_post_error hp, rfl⟩
  by_cases hs : resp.StatusCode = StatusOK
  swap
  · exact ⟨_, retryLoop_bad_status hp hs, rfl⟩
  rcases hd : rt.Decode resp.Body response with ⟨_ | e, r1⟩
  · exact ⟨_, retryLoop_token_code_retried hp hs hd, rfl⟩
  · exact ⟨_, retryLoop_decode_error hp hs hd, rfl⟩

/-- The outcome of the loop does not depend on the surplus of fuel: after the
retry one unit is enough. -/
theorem retryLoop_retried_fuel (fuel : Nat) (token : String) (world : σ)
    (response : R) (trace : List Event) :
    retryLoop codes rt clt incompleteURL contentType bodyBytes
        (fuel + 1) true token world response trace =
      retryLoop codes rt clt incompleteURL contentType bodyBytes
        1 true token world response trace := by
  simp only [retryLoop]
  rfl

/-- The outcome of the loop does not depend on the surplus of fuel: from the
start two units are enough. -/
theorem retryLoop_fuel (fuel : Nat) (token : String) (world : σ)
    (response : R) (trace : List Event) :
    retryLoop codes rt clt incompleteURL contentType bodyBytes
        (fuel + 2) false token world response trace =
      retryLoop codes rt clt incompleteURL contentType bodyBytes
        2 false token world response trace := by
  simp only [retryLoop]
  rfl

/-- From the start, two passes through the label end the call; the calls made
are one POST, or one POST and a `TokenRefresh`, or these and a second POST. -/
theorem retryLoop_start (fuel : Nat) (token : String) (world : σ)
    (response : R) (trace : List Event) :
    ∃ out, retryLoop codes rt clt incompleteURL contentType bodyBytes
        (fuel + 2) false token world response trace = some out ∧
      (out.trace = trace ++ [Event.Post (finalURL incompleteURL token) contentType bodyBytes] ∨
       out.trace = trace ++ [Event.Post (finalURL incompleteURL token) contentType bodyBytes,
          Event.TokenRefresh] ∨
       ∃ token2 w2 w3, clt.TokenRefresh w2 = (.ok token2, w3) ∧
        out.trace = trace ++ [Event.Post (finalURL incompleteURL token) contentType bodyBytes,
          Event.TokenRefresh, Event.Post (finalURL incompleteURL token2) contentType bodyBytes]) := by
  rcases hp : clt.Post (finalURL incompleteURL token) contentType bodyBytes world
    with ⟨e | resp, w2⟩
  · exact ⟨_, retryLoop_post_error hp, Or.inl rfl⟩
  by_cases hs : resp.StatusCode = StatusOK
  swap
  · exact ⟨_, retryLoop_bad_status hp hs, Or.inl rfl⟩
  rcases hd : rt.Decode resp.Body response with ⟨_ | e, r1⟩
  swap
  · exact ⟨_, retryLoop_decode_error hp hs hd, Or.inl rfl⟩
  by_cases hok : rt.ErrCode r1 = codes.ErrCodeOK
  · exact ⟨_, retryLoop_plain hp hs hd (Or.inl hok), Or.inl rfl⟩
  by_cases hc : rt.ErrCode r1 = codes.ErrCodeTimeout ∨ rt.ErrCode r1 = codes.ErrCodeInvalidCredential
  swap
  · have hc2 := not_or.mp hc
    exact ⟨_, retryLoop_plain hp hs hd (Or.inr hc2), Or.inl rfl⟩
  rcases hr : clt.TokenRefresh w2 with ⟨e | token2, w3⟩
  · exact ⟨_, retryLoop_refresh_error hp hs hd hok hc hr,
      Or.inr (Or.inl rfl)⟩
  · obtain ⟨out, ho, htr⟩ := @retryLoop_retried σ R codes rt clt incompleteURL contentType bodyBytes
      fuel token2 w3 r1 (trace ++ [Event.Post (finalURL incompleteURL token) contentType bodyBytes,
          Event.TokenRefresh])
    refine ⟨out, ?_, Or.inr (Or.inr ⟨token2, w2, w3, hr, ?_⟩)⟩
    · rw [retryLoop_goto hp hs hd hok hc hr, ho]
    · rw [htr]; simp

/-- Once the body is built and `Token` has given a token, a call is the code
from `RETRY` on, entered with `hasRetried` unset. -/
theorem UploadFromReader_eq_retryLoop {env : WriterEnv}
    {part1FieldName part1FileName : String} {part1ValueReader : Reader}
    {part2FieldName : String} {part2Value : Bytes} {world w1 : σ} {mw : Writer} {token : String}
    (fuel : Nat) (response : R)
    (hb : buildBody env part1FieldName part1FileName part1ValueReader part2FieldName part2Value
      = .ok mw)
    (ht : clt.Token world = (.ok token, w1)) :
    UploadFromReader fuel codes env rt clt incompleteURL part1FieldName part1FileName
        part1ValueReader part2FieldName part2Value response world =
      retryLoop codes rt clt incompleteURL mw.FormDataContentType mw.buf
        fuel false token w1 response [Event.Token] := by
  simp only [UploadFromReader, hb, ht]

end Attempt

/-! ## Termination and the number of calls -/

/-- C1. For every environment, with two units of fuel or more a call of
`UploadFromReader` returns, and the same outcome whatever the surplus of fuel;
the outcome has at most two HTTP POSTs and at most one `TokenRefresh`. -/
theorem UploadFromReader_terminates {σ R : Type} (codes : ErrCodes) (env : WriterEnv)
    (rt : ResponseType R) (clt : CorpClient σ)
    (incompleteURL part1FieldName part1FileName : String) (part1ValueReader : Reader)
    (part2FieldName : String) (part2Value : Bytes) (response : R) (world : σ) :
    ∃ out : Outcome σ R,
      (∀ fuel, UploadFromReader (fuel + 2) codes env rt clt incompleteURL part1FieldName
          part1FileName part1ValueReader part2FieldName part2Value response world = some out) ∧
      countPosts out.trace ≤ 2 ∧ countRefresh out.trace ≤ 1 := by
  simp only [UploadFromReader]
  rcases buildBody env part1FieldName part1FileName part1ValueReader part2FieldName
    part2Value with e | mw
  · exact ⟨_, fun _ => rfl, by simp [countPosts], by simp [countRefresh]⟩
  rcases clt.Token world with ⟨e | token, w1⟩
  · exact ⟨_, fun _ => rfl, by simp [countPosts], by simp [countRefresh]⟩
  obtain ⟨out, ho, htr⟩ := @retryLoop_start σ R codes rt clt incompleteURL
    mw.FormDataContentType mw.buf 0 token w1 response [Event.Token]
  refine ⟨out, fun fuel => ?_, ?_, ?_⟩
  · simp only []
    rw [retryLoop_fuel, ← ho]
  · rcases htr with h | h | ⟨t2, _, _, _, h⟩ <;> rw [h] <;> simp [countPosts]
  · rcases htr with h | h | ⟨t2, _, _, _, h⟩ <;> rw [h] <;> simp [countRefresh]

/-- The outcome of a call, with what decides whether a second POST is made and
what the calls are when it is. -/
theorem upload_outcome {σ R : Type} (codes : ErrCodes) (env : WriterEnv)
    (rt : ResponseType R) (clt : CorpClient σ)
    (incompleteURL part1FieldName part1FileName : String) (part1ValueReader : Reader)
    (part2FieldName : String) (part2Value : Bytes) (response : R) (world : σ) :
    ∃ out : Outcome σ R,
      (∀ fuel, UploadFromReader (fuel + 2) codes env rt clt incompleteURL part1FieldName
          part1FileName part1ValueReader part2FieldName part2Value response world = some out) ∧
      (codes.ErrCodeTimeout ≠ codes.ErrCodeOK →
        codes.ErrCodeInvalidCredential ≠ codes.ErrCodeOK →
        (countPosts out.trace = 2 ↔
        ∃ mw token w1 resp w2 r1 token2 w3,
          buildBody env part1FieldName part1FileName part1ValueReader part2FieldName part2Value
            = .ok mw ∧
          clt.Token world = (.ok token, w1) ∧
          clt.Post (finalURL incompleteURL token) mw.FormDataContentType mw.buf w1
            = (.ok resp, w2) ∧
          resp.StatusCode = StatusOK ∧
          rt.Decode resp.Body response = (none, r1) ∧
          (rt.ErrCode r1 = codes.ErrCodeTimeout ∨ rt.ErrCode r1 = codes.ErrCodeInvalidCredential) ∧
          clt.TokenRefresh w2 = (.ok token2, w3))) ∧
      (∀ mw token w1 resp w2 r1,
          buildBody env part1FieldName part1FileName part1ValueReader part2FieldName part2Value
            = .ok mw →
          clt.Token world = (.ok token, w1) →
          clt.Post (finalURL incompleteURL token) mw.FormDataContentType mw.buf w1
            = (.ok resp, w2) →
          resp.StatusCode = StatusOK →
          rt.Decode resp.Body response = (none, r1) →
          (rt.ErrCode r1 = codes.ErrCodeOK ∨
            (rt.ErrCode r1 ≠ codes.ErrCodeTimeout ∧ rt.ErrCode r1 ≠ codes.ErrCodeInvalidCredential)) →
          countPosts out.trace = 1 ∧ countRefresh out.trace = 0) ∧
      (countPosts out.trace = 2 →
        ∃ mw token w1 resp w2 token2 w3,
          buildBody env part1FieldName part1FileName part1ValueReader part2FieldName part2Value
            = .ok mw ∧
          clt.Token world = (.ok token, w1) ∧
          clt.Post (finalURL incompleteURL token) mw.FormDataContentType mw.buf w1
            = (.ok resp, w2) ∧
          clt.TokenRefresh w2 = (.ok token2, w3) ∧
          out.trace =
            [Event.Token,
             Event.Post (incompleteURL ++ QueryEscape token) mw.FormDataContentType mw.buf,
             Event.TokenRefresh,
             Event.Post (incompleteURL ++ QueryEscape token2) mw.FormDataContentType mw.buf]) := by
  rcases hb : buildBody env part1FieldName part1FileName part1ValueReader part2FieldName
    part2Value with e | mw
  · refine ⟨⟨some e, response, world, []⟩, fun fuel => by simp [UploadFromReader, hb], ?_, ?_, ?_⟩
    · intro _ _
      simp [countPosts]
    · simp
    · intro h
      simp [countPosts] at h
  rcases ht : clt.Token world with ⟨e | token, w1⟩
  · refine ⟨⟨some e, response, w1, [Event.Token]⟩,
      fun fuel => by simp [UploadFromReader, hb, ht], ?_, ?_, ?_⟩
    · intro _ _
      simp [countPosts]
    · simp
    · intro h
      simp [countPosts] at h
  rcases hp : clt.Post (finalURL incompleteURL token) mw.FormDataContentType mw.buf w1
    with ⟨e | resp, w2⟩
  · refine ⟨_, fun fuel => by
      simp only [UploadFromReader, hb, ht]; exact retryLoop_post_error hp, ?_, ?_, ?_⟩
    · intro _ _
      simp [countPosts, hp]
    · intro mw' token' w1' resp' w2' r1' hb' ht' hp' hs' hd' hc'
      simp_all [countPosts, countRefresh]
    · intro h
      simp [countPosts] at h
  by_cases hs : resp.StatusCode = StatusOK
  swap
  · refine ⟨_, fun fuel => by
      simp only [UploadFromReader, hb, ht]; exact retryLoop_bad_status hp hs, ?_, ?_, ?_⟩
    · intro _ _
      simp [countPosts, hp, hs]
    · intro mw' token' w1' resp' w2' r1' hb' ht' hp' hs' hd' hc'
      simp_all [countPosts, countRefresh]
    · intro h
      simp [countPosts] at h
  rcases hd : rt.Decode resp.Body response with ⟨_ | e, r1⟩
  swap
  · refine ⟨_, fun fuel => by
      simp only [UploadFromReader, hb, ht]; exact retryLoop_decode_error hp hs hd, ?_, ?_, ?_⟩
    · intro _ _
      simp [countPosts, hp, hs, hd]
    · intro mw' token' w1' resp' w2' r1' hb' ht' hp' hs' hd' hc'
      simp_all [countPosts, countRefresh]
    · intro h
      simp [countPosts] at h
  by_cases hc : rt.ErrCode r1 = codes.ErrCodeOK ∨
      (rt.ErrCode r1 ≠ codes.ErrCodeTimeout ∧ rt.ErrCode r1 ≠ codes.ErrCodeInvalidCredential)
  · refine ⟨_, fun fuel => by
      simp only [UploadFromReader, hb, ht]; exact retryLoop_plain hp hs hd hc, ?_, ?_, ?_⟩
    · intro hT hI
      have hn : ¬ (rt.ErrCode r1 = codes.ErrCodeTimeout ∨
          rt.ErrCode r1 = codes.ErrCodeInvalidCredential) := by
        rcases hc with h | ⟨h1, h2⟩
        · rw [h]; exact fun h' => h'.elim (fun a => hT a.symm) (fun a => hI a.symm)
        · exact fun h' => h'.elim h1 h2
      simp [countPosts, hp, hs, hd, hn]
    · intro mw' token' w1' resp' w2' r1' hb' ht' hp' hs' hd' hc'
      simp_all [countPosts, countRefresh]
    · intro h
      simp [countPosts] at h
  have hok : rt.ErrCode r1 ≠ codes.ErrCodeOK := fun h => hc (Or.inl h)
  have hc2 : rt.ErrCode r1 = codes.ErrCodeTimeout ∨
      rt.ErrCode r1 = codes.ErrCodeInvalidCredential := by
    by_contra h
    exact hc (Or.inr (not_or.mp h))
  rcases hr : clt.TokenRefresh w2 with ⟨e | token2, w3⟩
  · refine ⟨_, fun fuel => by
      simp only [UploadFromReader, hb, ht]
      exact retryLoop_refresh_error hp hs hd hok hc2 hr, ?_, ?_, ?_⟩
    · intro _ _
      simp [countPosts, hp, hs, hd, hr]
    · intro mw' token' w1' resp' w2' r1' hb' ht' hp' hs' hd' hc'
      simp_all [countPosts, countRefresh]
    · intro h
      simp [countPosts] at h
  · obtain ⟨out, ho, htr⟩ := @retryLoop_retried σ R codes rt clt incompleteURL
      mw.FormDataContentType mw.buf 0 token2 w3 r1
      ([Event.Token] ++ [Event.Post (finalURL incompleteURL token) mw.FormDataContentType mw.buf,
          Event.TokenRefresh])
    refine ⟨out, fun fuel => ?_, ?_, ?_, ?_⟩
    · simp only [UploadFromReader, hb, ht]
      rw [retryLoop_fuel, retryLoop_goto hp hs hd hok hc2 hr, ho]
    · intro _ _
      rw [htr]
      constructor
      · intro _
        exact ⟨mw, token, w1, resp, w2, r1, token2, w3, rfl, rfl, hp, hs, hd, hc2, hr⟩
      · intro _
        simp [countPosts]
    · intro mw' token' w1' resp' w2' r1' hb' ht' hp' hs' hd' hc'
      simp_all [countPosts, countRefresh]
    · intro _
      refine ⟨mw, token, w1, resp, w2, token2, w3, rfl, rfl, hp, hr, ?_⟩
      rw [htr]
      rfl

/-- C2. A second POST is made exactly when the body was built, `Token` gave a
token, the first POST came back with status 200 and a body that decoded, the
decoded `ErrCode` is `ErrCodeTimeout` or `ErrCodeInvalidCredential`, and
`TokenRefresh` gave a token. When the first decoded `ErrCode` is `ErrCodeOK` or
is neither of the two token codes, exactly one POST is made and `TokenRefresh`
is not called. The three constants are `case` labels of one `switch`, so the
token codes differ from `ErrCodeOK`. -/
theorem second_post_iff {σ R : Type} (codes : ErrCodes) (env : WriterEnv)
    (rt : ResponseType R) (clt : CorpClient σ)
    (incompleteURL part1FieldName part1FileName : String) (part1ValueReader : Reader)
    (part2FieldName : String) (part2Value : Bytes) (response : R) (world : σ)
    (hT : codes.ErrCodeTimeout ≠ codes.ErrCodeOK)
    (hI : codes.ErrCodeInvalidCredential ≠ codes.ErrCodeOK) :
    ∃ out : Outcome σ R,
      (∀ fuel, UploadFromReader (fuel + 2) codes env rt clt incompleteURL part1FieldName
          part1FileName part1ValueReader part2FieldName part2Value response world = some out) ∧
      (countPosts out.trace = 2 ↔
        ∃ mw token w1 resp w2 r1 token2 w3,
          buildBody env part1FieldName part1FileName part1ValueReader part2FieldName part2Value
            = .ok mw ∧
          clt.Token world = (.ok token, w1) ∧
          clt.Post (finalURL incompleteURL token) mw.FormDataContentType mw.buf w1
            = (.ok resp, w2) ∧
          resp.StatusCode = StatusOK ∧
          rt.Decode resp.Body response = (none, r1) ∧
          (rt.ErrCode r1 = codes.ErrCodeTimeout ∨ rt.ErrCode r1 = codes.ErrCodeInvalidCredential) ∧
          clt.TokenRefresh w2 = (.ok token2, w3)) ∧
      (∀ mw token w1 resp w2 r1,
          buildBody env part1FieldName part1FileName part1ValueReader part2FieldName part2Value
            = .ok mw →
          clt.Token world = (.ok token, w1) →
          clt.Post (finalURL incompleteURL token) mw.FormDataContentType mw.buf w1
            = (.ok resp, w2) →
          resp.StatusCode = StatusOK →
          rt.Decode resp.Body response = (none, r1) →
          (rt.ErrCode r1 = codes.ErrCodeOK ∨
            (rt.ErrCode r1 ≠ codes.ErrCodeTimeout ∧ rt.ErrCode r1 ≠ codes.ErrCodeInvalidCredential)) →
          countPosts out.trace = 1 ∧ countRefresh out.trace = 0) := by
  obtain ⟨out, ho, hiff, hplain, _⟩ := upload_outcome codes env rt clt incompleteURL
    part1FieldName part1FileName part1ValueReader part2FieldName part2Value response world
  exact ⟨out, ho, hiff hT hI, hplain⟩

/-- C2, at a concrete call: the first response carries code 42001, the token is
refreshed, and two POSTs are made. -/
theorem second_post_iff_witness :
    demoCodes.ErrCodeTimeout ≠ demoCodes.ErrCodeOK ∧
    demoCodes.ErrCodeInvalidCredential ≠ demoCodes.ErrCodeOK ∧
    ∃ out : Outcome (List (Except Error HttpResponse)) DemoResponse,
      UploadFromReader 2 demoCodes demoWriterEnv demoResponseType
          (scriptedClient (.ok "t1") (.ok "t2")) "https://host/upload?access_token="
          "media" "a.png" ⟨[0x89, 0x50, 0x4E, 0x47], none⟩ "" [] ⟨0, ""⟩
          [ok200 "\x7b\"errcode\":42001\x7d", ok200 "\x7b\"errcode\":0\x7d"] = some out ∧
      countPosts out.trace = 2 := by
  obtain ⟨out, ho, hiff, _⟩ := second_post_iff demoCodes demoWriterEnv demoResponseType
    (scriptedClient (.ok "t1") (.ok "t2")) "https://host/upload?access_token="
    "media" "a.png" ⟨[0x89, 0x50, 0x4E, 0x47], none⟩ "" [] ⟨0, ""⟩
    [ok200 "\x7b\"errcode\":42001\x7d", ok200 "\x7b\"errcode\":0\x7d"] (by decide) (by decide)
  refine ⟨by decide, by decide, out, ho 0, hiff.mpr ?_⟩
  exact ⟨_, _, _, _, _, _, _, _, rfl, rfl, rfl, rfl, rfl, Or.inl rfl, rfl⟩

/-- C3. When a second POST is made, the calls are `Token`, the first POST,
`TokenRefresh`, the second POST, in this order; the second POST goes to the URL
made from the token `TokenRefresh` returned, and carries the same content type
and the same body bytes as the first. -/
theorem retry_post_arguments {σ R : Type} (codes : ErrCodes) (env : WriterEnv)
    (rt : ResponseType R) (clt : CorpClient σ)
    (incompleteURL part1FieldName part1FileName : String) (part1ValueReader : Reader)
    (part2FieldName : String) (part2Value : Bytes) (response : R) (world : σ) :
    ∃ out : Outcome σ R,
      (∀ fuel, UploadFromReader (fuel + 2) codes env rt clt incompleteURL part1FieldName
          part1FileName part1ValueReader part2FieldName part2Value response world = some out) ∧
      (countPosts out.trace = 2 →
        ∃ mw token w1 resp w2 token2 w3,
          buildBody env part1FieldName part1FileName part1ValueReader part2FieldName part2Value
            = .ok mw ∧
          clt.Token world = (.ok token, w1) ∧
          clt.Post (finalURL incompleteURL token) mw.FormDataContentType mw.buf w1
            = (.ok resp, w2) ∧
          clt.TokenRefresh w2 = (.ok token2, w3) ∧
          out.trace =
            [Event.Token,
             Event.Post (incompleteURL ++ QueryEscape token) mw.FormDataContentType mw.buf,
             Event.TokenRefresh,
             Event.Post (incompleteURL ++ QueryEscape token2) mw.FormDataContentType mw.buf]) := by
  obtain ⟨out, ho, _, _, htrace⟩ := upload_outcome codes env rt clt incompleteURL
    part1FieldName part1FileName part1ValueReader part2FieldName part2Value response world
  exact ⟨out, ho, htrace⟩

/-- C3, at a concrete call: the token first given is `t1`, the refreshed one is
`t2`; the second POST goes to the URL ending in `t2`, with the body and the
content type of the first. -/
theorem retry_post_arguments_witness :
    ∃ out : Outcome (List (Except Error HttpResponse)) DemoResponse,
      UploadFromReader 2 demoCodes demoWriterEnv demoResponseType
          (scriptedClient (.ok "t1") (.ok "t2")) "https://host/upload?access_token="
          "media" "a.png" ⟨[0x89, 0x50, 0x4E, 0x47], none⟩ "" [] ⟨0, ""⟩
          [ok200 "\x7b\"errcode\":40001\x7d", ok200 "\x7b\"errcode\":0\x7d"] = some out ∧
      countPosts out.trace = 2 ∧
      ∃ body, out.trace =
        [Event.Token,
         Event.Post "https://host/upload?access_token=t1" "multipart/form-data; boundary=B" body,
         Event.TokenRefresh,
         Event.Post "https://host/upload?access_token=t2" "multipart/form-data; boundary=B" body] := by
  obtain ⟨out, ho, htrace⟩ := retry_post_arguments demoCodes demoWriterEnv demoResponseType
    (scriptedClient (.ok "t1") (.ok "t2")) "https://host/upload?access_token="
    "media" "a.png" ⟨[0x89, 0x50, 0x4E, 0x47], none⟩ "" [] ⟨0, ""⟩
    [ok200 "\x7b\"errcode\":40001\x7d", ok200 "\x7b\"errcode\":0\x7d"]
  have h2 : countPosts out.trace = 2 := by
    have h := ho 0
    simp only [UploadFromReader, retryLoop] at h
    have h' := Option.some.inj h
    rw [← h']
    rfl
  obtain ⟨mw, token, w1, resp, w2, token2, w3, hb, ht, hp, hr, htr⟩ := htrace h2
  have e1 : token = "t1" := by
    have := congrArg (fun x => x.1) ht
    exact (Except.ok.inj this).symm
  have e2 : token2 = "t2" := by
    have := congrArg (fun x => x.1) hr
    exact (Except.ok.inj this).symm
  refine ⟨out, ho 0, h2, mw.buf, ?_⟩
  rw [htr, e1, e2]
  have e3 : mw.FormDataContentType = "multipart/form-data; boundary=B" := by
    have := Except.ok.inj hb
    rw [← this]
    rfl
  rw [e3]
  rfl

/-! ## Failures of an attempt -/

/-- C4. Whenever control is at `RETRY` (first attempt or retried one, whatever
the token, the world, the structure and the calls made so far; a call enters
this code by `UploadFromReader_eq_retryLoop` and re-enters it by
`retryLoop_goto`): if the POST
fails at the transport level, or its status is not 200, or its body cannot be
decoded, the call returns a non-nil error, and the POST is the last call into
the environment (no further POST, no `TokenRefresh`). The error is the
transport error, `"http.Status: "` followed by the status string, and the
decoder's error, respectively. -/
theorem attempt_failure_returns {σ R : Type} (codes : ErrCodes) (rt : ResponseType R)
    (clt : CorpClient σ) (incompleteURL contentType : String) (bodyBytes : Bytes)
    (fuel : Nat) (hasRetried : Bool) (token : String) (world : σ) (response : R)
    (trace : List Event) :
    (∀ e w2,
      clt.Post (finalURL incompleteURL token) contentType bodyBytes world = (.error e, w2) →
      ∃ out, retryLoop codes rt clt incompleteURL contentType bodyBytes
          (fuel + 1) hasRetried token world response trace = some out ∧
        out.err = some e ∧
        out.trace = trace ++ [Event.Post (finalURL incompleteURL token) contentType bodyBytes]) ∧
    (∀ resp w2,
      clt.Post (finalURL incompleteURL token) contentType bodyBytes world = (.ok resp, w2) →
      resp.StatusCode ≠ StatusOK →
      ∃ out, retryLoop codes rt clt incompleteURL contentType bodyBytes
          (fuel + 1) hasRetried token world response trace = some out ∧
        out.err = some ("http.Status: " ++ resp.Status) ∧
        out.trace = trace ++ [Event.Post (finalURL incompleteURL token) contentType bodyBytes]) ∧
    (∀ resp w2 e r1,
      clt.Post (finalURL incompleteURL token) contentType bodyBytes world = (.ok resp, w2) →
      resp.StatusCode = StatusOK →
      rt.Decode resp.Body response = (some e, r1) →
      ∃ out, retryLoop codes rt clt incompleteURL contentType bodyBytes
          (fuel + 1) hasRetried token world response trace = some out ∧
        out.err = some e ∧
        out.trace = trace ++ [Event.Post (finalURL incompleteURL token) contentType bodyBytes]) := by
  refine ⟨?_, ?_, ?_⟩
  · intro e w2 hp
    exact ⟨_, retryLoop_post_error hp, rfl, rfl⟩
  · intro resp w2 hp hs
    exact ⟨_, retryLoop_bad_status hp hs, rfl, rfl⟩
  · intro resp w2 e r1 hp hs hd
    exact ⟨_, retryLoop_decode_error hp hs hd, rfl, rfl⟩

/-- C4, at concrete attempts: a retried attempt whose POST is refused, a first
attempt answered with status 502, a first attempt with an undecodable body. -/
theorem attempt_failure_returns_witness :
    (∃ out : Outcome (List (Except Error HttpResponse)) DemoResponse,
      retryLoop demoCodes demoResponseType (scriptedClient (.ok "t1") (.ok "t2"))
          "u?t=" "ct" [0x62, 0x6F, 0x64, 0x79] 1 true "t2" [] ⟨42001, ""⟩ [Event.Token] = some out ∧
        out.err = some "connection refused" ∧
        out.trace = [Event.Token] ++ [Event.Post (finalURL "u?t=" "t2") "ct" [0x62, 0x6F, 0x64, 0x79]]) ∧
    (∃ out : Outcome (List (Except Error HttpResponse)) DemoResponse,
      retryLoop demoCodes demoResponseType (scriptedClient (.ok "t1") (.ok "t2"))
          "u?t=" "ct" [0x62, 0x6F, 0x64, 0x79] 1 false "t1" [.ok ⟨502, "502 Bad Gateway", ""⟩] ⟨0, ""⟩
          [Event.Token] = some out ∧
        out.err = some "http.Status: 502 Bad Gateway" ∧
        out.trace = [Event.Token] ++ [Event.Post (finalURL "u?t=" "t1") "ct" [0x62, 0x6F, 0x64, 0x79]]) ∧
    (∃ out : Outcome (List (Except Error HttpResponse)) DemoResponse,
      retryLoop demoCodes demoResponseType (scriptedClient (.ok "t1") (.ok "t2"))
          "u?t=" "ct" [0x62, 0x6F, 0x64, 0x79] 1 false "t1" [ok200 "<html>"] ⟨0, ""⟩ [Event.Token] = some out ∧
        out.err = some "invalid character" ∧
        out.trace = [Event.Token] ++ [Event.Post (finalURL "u?t=" "t1") "ct" [0x62, 0x6F, 0x64, 0x79]]) :=
  ⟨(attempt_failure_returns demoCodes demoResponseType (scriptedClient (.ok "t1") (.ok "t2"))
      "u?t=" "ct" [0x62, 0x6F, 0x64, 0x79] 0 true "t2" [] ⟨42001, ""⟩ [Event.Token]).1
      "connection refused" [] rfl,
   (attempt_failure_returns demoCodes demoResponseType (scriptedClient (.ok "t1") (.ok "t2"))
      "u?t=" "ct" [0x62, 0x6F, 0x64, 0x79] 0 false "t1" [.ok ⟨502, "502 Bad Gateway", ""⟩] ⟨0, ""⟩
      [Event.Token]).2.1 ⟨502, "502 Bad Gateway", ""⟩ [] rfl (by decide),
   (attempt_failure_returns demoCodes demoResponseType (scriptedClient (.ok "t1") (.ok "t2"))
      "u?t=" "ct" [0x62, 0x6F, 0x64, 0x79] 0 false "t1" [ok200 "<html>"] ⟨0, ""⟩ [Event.Token]).2.2
      ⟨200, "200 OK", "<html>"⟩ [] "invalid character" ⟨0, ""⟩ rfl (by decide) rfl⟩

/-- C5. Whenever control is at `RETRY` (first attempt or retried one): if the
POST comes back with status 200 and a body that decodes, and the decoded
`ErrCode` is neither `ErrCodeTimeout` nor `ErrCodeInvalidCredential` (so for
every such non-zero code, and for zero too), the call returns a nil error after
this POST, and the caller's structure is the decoded one, `ErrCode` included. -/
theorem other_code_returns_nil {σ R : Type} (codes : ErrCodes) (rt : ResponseType R)
    (clt : CorpClient σ) (incompleteURL contentType : String) (bodyBytes : Bytes)
    (fuel : Nat) (hasRetried : Bool) (token : String) (world : σ) (response : R)
    (trace : List Event) (resp : HttpResponse) (w2 : σ) (r1 : R)
    (hp : clt.Post (finalURL incompleteURL token) contentType bodyBytes world = (.ok resp, w2))
    (hs : resp.StatusCode = StatusOK)
    (hd : rt.Decode resp.Body response = (none, r1))
    (hT : rt.ErrCode r1 ≠ codes.ErrCodeTimeout)
    (hI : rt.ErrCode r1 ≠ codes.ErrCodeInvalidCredential) :
    ∃ out, retryLoop codes rt clt incompleteURL contentType bodyBytes
        (fuel + 1) hasRetried token world response trace = some out ∧
      out.err = none ∧ out.response = r1 ∧ rt.ErrCode out.response = rt.ErrCode r1 ∧
      out.trace = trace ++ [Event.Post (finalURL incompleteURL token) contentType bodyBytes] :=
  ⟨_, retryLoop_plain hp hs hd (Or.inr ⟨hT, hI⟩), rfl, rfl, rfl, rfl⟩

/-- C5, at a concrete attempt: code 40003 comes back, the error is nil and the
structure holds 40003. -/
theorem other_code_returns_nil_witness :
    ∃ out : Outcome (List (Except Error HttpResponse)) DemoResponse,
      retryLoop demoCodes demoResponseType (scriptedClient (.ok "t1") (.ok "t2"))
          "u?t=" "ct" [0x62, 0x6F, 0x64, 0x79] 1 false "t1" [ok200 "\x7b\"errcode\":40003\x7d"] ⟨0, ""⟩
          [Event.Token] = some out ∧
        out.err = none ∧ out.response = ⟨40003, ""⟩ ∧
        demoResponseType.ErrCode out.response = demoResponseType.ErrCode ⟨40003, ""⟩ ∧
        out.trace = [Event.Token] ++ [Event.Post (finalURL "u?t=" "t1") "ct" [0x62, 0x6F, 0x64, 0x79]] :=
  other_code_returns_nil demoCodes demoResponseType (scriptedClient (.ok "t1") (.ok "t2"))
    "u?t=" "ct" [0x62, 0x6F, 0x64, 0x79] 0 false "t1" [ok200 "\x7b\"errcode\":40003\x7d"] ⟨0, ""⟩
    [Event.Token] ⟨200, "200 OK", "\x7b\"errcode\":40003\x7d"⟩ [] ⟨40003, ""⟩
    rfl (by decide) rfl (by decide) (by decide)

/-! ## A token code that persists, and the structure across the retry -/

/-- C9. If the first response and the retried one both have status 200, decode,
and carry a token code, the call returns a nil error after exactly two POSTs and
exactly one `TokenRefresh`; the token code is only to be seen in the structure. -/
theorem persistent_token_code_returns_nil {σ R : Type} (codes : ErrCodes) (env : WriterEnv)
    (rt : ResponseType R) (clt : CorpClient σ)
    (incompleteURL part1FieldName part1FileName : String) (part1ValueReader : Reader)
    (part2FieldName : String) (part2Value : Bytes) (response : R) (world : σ)
    (mw : Writer) (token token2 : String) (w1 w2 w3 w4 : σ) (resp resp2 : HttpResponse) (r1 r2 : R)
    (hT : codes.ErrCodeTimeout ≠ codes.ErrCodeOK)
    (hI : codes.ErrCodeInvalidCredential ≠ codes.ErrCodeOK)
    (hb : buildBody env part1FieldName part1FileName part1ValueReader part2FieldName part2Value
      = .ok mw)
    (ht : clt.Token world = (.ok token, w1))
    (hp : clt.Post (finalURL incompleteURL token) mw.FormDataContentType mw.buf w1
      = (.ok resp, w2))
    (hs : resp.StatusCode = StatusOK)
    (hd : rt.Decode resp.Body response = (none, r1))
    (hc : rt.ErrCode r1 = codes.ErrCodeTimeout ∨ rt.ErrCode r1 = codes.ErrCodeInvalidCredential)
    (hr : clt.TokenRefresh w2 = (.ok token2, w3))
    (hp2 : clt.Post (finalURL incompleteURL token2) mw.FormDataContentType mw.buf w3
      = (.ok resp2, w4))
    (hs2 : resp2.StatusCode = StatusOK)
    (hd2 : rt.Decode resp2.Body r1 = (none, r2))
    (hc2 : rt.ErrCode r2 = codes.ErrCodeTimeout ∨ rt.ErrCode r2 = codes.ErrCodeInvalidCredential) :
    ∃ out : Outcome σ R,
      (∀ fuel, UploadFromReader (fuel + 2) codes env rt clt incompleteURL part1FieldName
          part1FileName part1ValueReader part2FieldName part2Value response world = some out) ∧
      out.err = none ∧ countPosts out.trace = 2 ∧ countRefresh out.trace = 1 ∧
      out.response = r2 ∧
      (rt.ErrCode out.response = codes.ErrCodeTimeout ∨
        rt.ErrCode out.response = codes.ErrCodeInvalidCredential) := by
  have hok : rt.ErrCode r1 ≠ codes.ErrCodeOK := by
    rcases hc with h | h <;> rw [h] <;> assumption
  refine ⟨⟨none, r2, w4, [Event.Token,
    Event.Post (finalURL incompleteURL token) mw.FormDataContentType mw.buf, Event.TokenRefresh,
    Event.Post (finalURL incompleteURL token2) mw.FormDataContentType mw.buf]⟩,
    fun fuel => ?_, rfl, rfl, rfl, rfl, hc2⟩
  simp only [UploadFromReader, hb, ht]
  rw [retryLoop_goto hp hs hd hok hc hr, retryLoop_token_code_retried hp2 hs2 hd2]
  rfl

/-- C9, at a concrete call: both responses carry code 42001. -/
theorem persistent_token_code_returns_nil_witness :
    ∃ out : Outcome (List (Except Error HttpResponse)) DemoResponse,
      (∀ fuel, UploadFromReader (fuel + 2) demoCodes demoWriterEnv demoResponseType
          (scriptedClient (.ok "t1") (.ok "t2")) "https://host/upload?access_token="
          "media" "a.png" ⟨[0x89, 0x50, 0x4E, 0x47], none⟩ "" [] ⟨0, ""⟩
          [ok200 "\x7b\"errcode\":42001\x7d", ok200 "\x7b\"errcode\":42001\x7d"] = some out) ∧
      out.err = none ∧ countPosts out.trace = 2 ∧ countRefresh out.trace = 1 ∧
      out.response = ⟨42001, ""⟩ ∧
      (demoResponseType.ErrCode out.response = demoCodes.ErrCodeTimeout ∨
        demoResponseType.ErrCode out.response = demoCodes.ErrCodeInvalidCredential) :=
  persistent_token_code_returns_nil demoCodes demoWriterEnv demoResponseType
    (scriptedClient (.ok "t1") (.ok "t2")) "https://host/upload?access_token="
    "media" "a.png" ⟨[0x89, 0x50, 0x4E, 0x47], none⟩ "" [] ⟨0, ""⟩
    [ok200 "\x7b\"errcode\":42001\x7d", ok200 "\x7b\"errcode\":42001\x7d"]
    _ "t1" "t2" _ _ _ _ _ _ _ ⟨42001, ""⟩
    (by decide) (by decide) rfl rfl rfl rfl rfl (Or.inl rfl) rfl rfl rfl rfl (Or.inl rfl)

/-- C10, as stated, fails: the first response is 200 with code 42001, the token
is refreshed, and the retried POST comes back with status 500. A retry has
happened (two POSTs, one `TokenRefresh`), the second body is never decoded, and
the structure on return is the one the first body left, not what decoding the
second body into it would give. -/
theorem response_not_reset_counterexample :
    (UploadFromReader 2 demoCodes demoWriterEnv demoResponseType
        (scriptedClient (.ok "t1") (.ok "t2")) "https://host/upload?access_token="
        "media" "a.png" ⟨[0x89, 0x50, 0x4E, 0x47], none⟩ "" [] ⟨0, ""⟩
        [ok200 "\x7b\"errcode\":42001\x7d",
         .ok ⟨500, "500 Internal Server Error", "\x7b\"errcode\":0\x7d"⟩]).map
        (fun out => (out.err, out.response, countPosts out.trace, countRefresh out.trace))
      = some (some "http.Status: 500 Internal Server Error", ⟨42001, ""⟩, 2, 1) ∧
    (demoResponseType.Decode "\x7b\"errcode\":0\x7d"
        (demoResponseType.Decode "\x7b\"errcode\":42001\x7d" ⟨0, ""⟩).2).2 = ⟨0, ""⟩ ∧
    (⟨42001, ""⟩ : DemoResponse) ≠ ⟨0, ""⟩ := by
  refine ⟨?_, ?_, ?_⟩
  · decide
  · decide
  · decide

/-- C10, amended. When a retry happens and the retried POST returns a response
with status 200, the structure on return is what decoding the second body gives on the structure as
the first body left it: the structure is not reset in between. So when decoding
the second body leaves `ErrCode` alone whatever the structure holds, the
`ErrCode` on return is the token code of the first response. -/
theorem response_not_reset {σ R : Type} (codes : ErrCodes) (env : WriterEnv)
    (rt : ResponseType R) (clt : CorpClient σ)
    (incompleteURL part1FieldName part1FileName : String) (part1ValueReader : Reader)
    (part2FieldName : String) (part2Value : Bytes) (response : R) (world : σ)
    (mw : Writer) (token token2 : String) (w1 w2 w3 w4 : σ) (resp resp2 : HttpResponse) (r1 : R)
    (hT : codes.ErrCodeTimeout ≠ codes.ErrCodeOK)
    (hI : codes.ErrCodeInvalidCredential ≠ codes.ErrCodeOK)
    (hb : buildBody env part1FieldName part1FileName part1ValueReader part2FieldName part2Value
      = .ok mw)
    (ht : clt.Token world = (.ok token, w1))
    (hp : clt.Post (finalURL incompleteURL token) mw.FormDataContentType mw.buf w1
      = (.ok resp, w2))
    (hs : resp.StatusCode = StatusOK)
    (hd : rt.Decode resp.Body response = (none, r1))
    (hc : rt.ErrCode r1 = codes.ErrCodeTimeout ∨ rt.ErrCode r1 = codes.ErrCodeInvalidCredential)
    (hr : clt.TokenRefresh w2 = (.ok token2, w3))
    (hp2 : clt.Post (finalURL incompleteURL token2) mw.FormDataContentType mw.buf w3
      = (.ok resp2, w4))
    (hs2 : resp2.StatusCode = StatusOK) :
    ∃ out : Outcome σ R,
      (∀ fuel, UploadFromReader (fuel + 2) codes env rt clt incompleteURL part1FieldName
          part1FileName part1ValueReader part2FieldName part2Value response world = some out) ∧
      out.response = (rt.Decode resp2.Body (rt.Decode resp.Body response).2).2 ∧
      out.err = (rt.Decode resp2.Body (rt.Decode resp.Body response).2).1 ∧
      ((∀ r, rt.ErrCode (rt.Decode resp2.Body r).2 = rt.ErrCode r) →
        rt.ErrCode out.response = rt.ErrCode r1 ∧
        (rt.ErrCode out.response = codes.ErrCodeTimeout ∨
          rt.ErrCode out.response = codes.ErrCodeInvalidCredential)) := by
  have hok : rt.ErrCode r1 ≠ codes.ErrCodeOK := by
    rcases hc with h | h <;> rw [h] <;> assumption
  rcases hd2 : rt.Decode resp2.Body r1 with ⟨_ | e, r2⟩
  · refine ⟨⟨none, r2, w4, [Event.Token,
      Event.Post (finalURL incompleteURL token) mw.FormDataContentType mw.buf, Event.TokenRefresh,
      Event.Post (finalURL incompleteURL token2) mw.FormDataContentType mw.buf]⟩,
      fun fuel => ?_, ?_, ?_, ?_⟩
    · simp only [UploadFromReader, hb, ht]
      rw [retryLoop_goto hp hs hd hok hc hr, retryLoop_token_code_retried hp2 hs2 hd2]
      rfl
    · simp [hd, hd2]
    · simp [hd, hd2]
    · intro hkeep
      have h := hkeep r1
      rw [hd2] at h
      exact ⟨h, by simpa [h] using hc⟩
  · refine ⟨⟨some e, r2, w4, [Event.Token,
      Event.Post (finalURL incompleteURL token) mw.FormDataContentType mw.buf, Event.TokenRefresh,
      Event.Post (finalURL incompleteURL token2) mw.FormDataContentType mw.buf]⟩,
      fun fuel => ?_, ?_, ?_, ?_⟩
    · simp only [UploadFromReader, hb, ht]
      rw [retryLoop_goto hp hs hd hok hc hr, retryLoop_decode_error hp2 hs2 hd2]
      rfl
    · simp [hd, hd2]
    · simp [hd, hd2]
    · intro hkeep
      have h := hkeep r1
      rw [hd2] at h
      exact ⟨h, by simpa [h] using hc⟩

/-- C10, at a concrete call: the first body sets `errcode` to 42001, the second
body only sets `errmsg`; on return the structure holds both, and the error is
nil. -/
theorem response_not_reset_witness :
    ∃ out : Outcome (List (Except Error HttpResponse)) DemoResponse,
      UploadFromReader 2 demoCodes demoWriterEnv demoResponseType
          (scriptedClient (.ok "t1") (.ok "t2")) "https://host/upload?access_token="
          "media" "a.png" ⟨[0x89, 0x50, 0x4E, 0x47], none⟩ "" [] ⟨0, ""⟩
          [ok200 "\x7b\"errcode\":42001\x7d", ok200 "\x7b\"errmsg\":\"ok\"\x7d"] = some out ∧
      out.response = ⟨42001, "ok"⟩ ∧ out.err = none ∧
      demoResponseType.ErrCode out.response = 42001 := by
  obtain ⟨out, ho, hresp, herr, hkeep⟩ := response_not_reset demoCodes demoWriterEnv
    demoResponseType (scriptedClient (.ok "t1") (.ok "t2")) "https://host/upload?access_token="
    "media" "a.png" ⟨[0x89, 0x50, 0x4E, 0x47], none⟩ "" [] ⟨0, ""⟩
    [ok200 "\x7b\"errcode\":42001\x7d", ok200 "\x7b\"errmsg\":\"ok\"\x7d"]
    _ "t1" "t2" _ _ _ _ ⟨200, "200 OK", "\x7b\"errcode\":42001\x7d"⟩
    ⟨200, "200 OK", "\x7b\"errmsg\":\"ok\"\x7d"⟩ ⟨42001, ""⟩
    (by decide) (by decide) rfl rfl rfl rfl rfl (Or.inl rfl) rfl rfl rfl
  exact ⟨out, ho 0, hresp, herr, (hkeep (fun _ => rfl)).1⟩

/-! ## Before the first POST -/

/-- C7. If building the multipart body fails, the call returns that error with
no call into the environment at all (no `Token`, no POST), the world and the
caller's structure as they were; if `Token` fails, the call returns that error
after the `Token` call alone (no POST, no `TokenRefresh`), the structure as it
was. Building fails with the error of the first of these that fails:
`CreateFormFile`, the copy of the file content, and, when the second part is
written, `CreateFormField` and the write of the value, then `Close`. -/
theorem no_post_without_body_and_token {σ R : Type} (fuel : Nat) (codes : ErrCodes)
    (env : WriterEnv) (rt : ResponseType R) (clt : CorpClient σ)
    (incompleteURL part1FieldName part1FileName : String) (part1ValueReader : Reader)
    (part2FieldName : String) (part2Value : Bytes) (response : R) (world : σ) :
    (∀ e, buildBody env part1FieldName part1FileName part1ValueReader part2FieldName part2Value
        = .error e →
      UploadFromReader fuel codes env rt clt incompleteURL part1FieldName part1FileName
        part1ValueReader part2FieldName part2Value response world
        = some ⟨some e, response, world, []⟩) ∧
    (∀ mw e w1, buildBody env part1FieldName part1FileName part1ValueReader part2FieldName
        part2Value = .ok mw →
      clt.Token world = (.error e, w1) →
      UploadFromReader fuel codes env rt clt incompleteURL part1FieldName part1FileName
        part1ValueReader part2FieldName part2Value response world
        = some ⟨some e, response, w1, [Event.Token]⟩) ∧
    (∀ e, env.createFormFileErr = some e →
      buildBody env part1FieldName part1FileName part1ValueReader part2FieldName part2Value
        = .error e) ∧
    (∀ e, env.createFormFileErr = none → part1ValueReader.err = some e →
      buildBody env part1FieldName part1FileName part1ValueReader part2FieldName part2Value
        = .error e) ∧
    (∀ e, env.createFormFileErr = none → part1ValueReader.err = none →
      part2FieldName ≠ "" → part2Value.length > 0 → env.createFormFieldErr = some e →
      buildBody env part1FieldName part1FileName part1ValueReader part2FieldName part2Value
        = .error e) ∧
    (∀ e, env.createFormFileErr = none → part1ValueReader.err = none →
      part2FieldName ≠ "" → part2Value.length > 0 → env.createFormFieldErr = none →
      env.part2WriteErr = some e →
      buildBody env part1FieldName part1FileName part1ValueReader part2FieldName part2Value
        = .error e) ∧
    (∀ e, env.createFormFileErr = none → part1ValueReader.err = none →
      part2FieldName ≠ "" → part2Value.length > 0 → env.createFormFieldErr = none →
      env.part2WriteErr = none → env.closeErr = some e →
      buildBody env part1FieldName part1FileName part1ValueReader part2FieldName part2Value
        = .error e) ∧
    (∀ e, env.createFormFileErr = none → part1ValueReader.err = none →
      ¬ (part2FieldName ≠ "" ∧ part2Value.length > 0) → env.closeErr = some e →
      buildBody env part1FieldName part1FileName part1ValueReader part2FieldName part2Value
        = .error e) := by
  refine ⟨?_, ?_, ?_, ?_, ?_, ?_, ?_, ?_⟩
  · intro e hb
    simp [UploadFromReader, hb]
  · intro mw e w1 hb ht
    simp [UploadFromReader, hb, ht]
  · intro e h1
    simp [buildBody, h1]
  · intro e h1 h2
    simp [buildBody, h1, h2]
  · intro e h1 h2 h3 h4 h5
    simp [buildBody, h1, h2, h3, h4, h5]
  · intro e h1 h2 h3 h4 h5 h6
    simp [buildBody, h1, h2, h3, h4, h5, h6]
  · intro e h1 h2 h3 h4 h5 h6 h7
    simp [buildBody, h1, h2, h3, h4, h5, h6, h7]
  · intro e h1 h2 h3 h4
    rw [buildBody, h1, h2]
    simp only [if_neg h3, h4]

/-- C7, at concrete calls: the reader fails, and `Token` fails. -/
theorem no_post_without_body_and_token_witness :
    UploadFromReader 2 demoCodes demoWriterEnv demoResponseType
        (scriptedClient (.ok "t1") (.ok "t2")) "https://host/upload?access_token="
        "media" "a.png" ⟨[0x89, 0x50], some "unexpected EOF"⟩ "" [] ⟨7, "old"⟩ [ok200 "\x7b\x7d"]
      = some ⟨some "unexpected EOF", ⟨7, "old"⟩, [ok200 "\x7b\x7d"], []⟩ ∧
    UploadFromReader 2 demoCodes demoWriterEnv demoResponseType
        (scriptedClient (.error "no token") (.ok "t2")) "https://host/upload?access_token="
        "media" "a.png" ⟨[0x89, 0x50, 0x4E, 0x47], none⟩ "" [] ⟨7, "old"⟩ [ok200 "\x7b\x7d"]
      = some ⟨some "no token", ⟨7, "old"⟩, [ok200 "\x7b\x7d"], [Event.Token]⟩ :=
  ⟨(no_post_without_body_and_token 2 demoCodes demoWriterEnv demoResponseType
      (scriptedClient (.ok "t1") (.ok "t2")) "https://host/upload?access_token="
      "media" "a.png" ⟨[0x89, 0x50], some "unexpected EOF"⟩ "" [] ⟨7, "old"⟩ [ok200 "\x7b\x7d"]).1
      "unexpected EOF" rfl,
   (no_post_without_body_and_token 2 demoCodes demoWriterEnv demoResponseType
      (scriptedClient (.error "no token") (.ok "t2")) "https://host/upload?access_token="
      "media" "a.png" ⟨[0x89, 0x50, 0x4E, 0x47], none⟩ "" [] ⟨7, "old"⟩ [ok200 "\x7b\x7d"]).2.1
      _ "no token" _ rfl rfl⟩

/-! ## The multipart body -/

/-- The bytes of a concatenation are the bytes of its pieces. -/
theorem toBytes_append (a b : String) : toBytes (a ++ b) = toBytes a ++ toBytes b := by
  simp [toBytes, String.data_append]

/-- Escaping the quotes of a concatenation escapes its pieces. -/
theorem escapeQuotes_append (a b : String) :
    escapeQuotes (a ++ b) = escapeQuotes a ++ escapeQuotes b := by
  apply String.ext
  simp [escapeQuotes, String.data_append]

/-- A character that is none of the four special ones is written as it is. -/
theorem flatMap_escapeQuoteChar_plain (l : List Char)
    (h : ∀ c ∈ l, c ≠ backslash ∧ c ≠ dquote ∧ c ≠ carriageReturn ∧ c ≠ lineFeed) :
    l.flatMap escapeQuoteChar = l := by
  induction l with
  | nil => rfl
  | cons c t ih =>
    obtain ⟨h1, h2, h3, h4⟩ := h c (List.mem_cons_self c t)
    have ht : ∀ d ∈ t, d ≠ backslash ∧ d ≠ dquote ∧ d ≠ carriageReturn ∧ d ≠ lineFeed :=
      fun d hd => h d (List.mem_cons_of_mem c hd)
    simp [List.flatMap_cons, escapeQuoteChar, h1, h2, h3, h4, ih ht]

set_option maxRecDepth 4096 in
/-- The bytes `CreateFormFile` writes as the first part. -/
theorem CreateFormFile_buf (w : Writer) (fieldName fileName : String) (h : w.lastpart = false) :
    (w.CreateFormFile fieldName fileName).buf =
      w.buf ++ toBytes (fileHeader w.boundary fieldName fileName) := by
  have e : "--" ++ w.boundary ++ "\r\n" ++
        String.join ([("Content-Disposition",
          "form-data; name=\"" ++ escapeQuotes fieldName ++ "\"; filename=\"" ++
            escapeQuotes fileName ++ "\""),
          ("Content-Type", "application/octet-stream")].map headerLine) ++ "\r\n" =
      fileHeader w.boundary fieldName fileName := by
    apply String.ext
    simp [fileHeader, headerLine, String.join, String.data_append]
  simp only [Writer.CreateFormFile, Writer.CreatePart, h]
  rw [← e]
  rfl

set_option maxRecDepth 4096 in
/-- The bytes `CreateFormField` writes after an earlier part. -/
theorem CreateFormField_buf (w : Writer) (fieldName : String) (h : w.lastpart = true) :
    (w.CreateFormField fieldName).buf =
      w.buf ++ toBytes "\r\n" ++ toBytes (fieldHeader w.boundary fieldName) := by
  have e : "\r\n--" ++ w.boundary ++ "\r\n" ++
        String.join ([("Content-Disposition",
          "form-data; name=\"" ++ escapeQuotes fieldName ++ "\"")].map headerLine) ++ "\r\n" =
      "\r\n" ++ fieldHeader w.boundary fieldName := by
    apply String.ext
    simp [fieldHeader, headerLine, String.join, String.data_append]
  simp only [Writer.CreateFormField, Writer.CreatePart, h]
  rw [List.append_assoc, ← toBytes_append, ← e]
  rfl

/-- The bytes `Close` writes. -/
theorem Close_buf (w : Writer) :
    w.Close.buf = w.buf ++ toBytes "\r\n" ++ closingBoundary w.boundary := by
  have e : "\r\n--" ++ w.boundary ++ "--\r\n" = "\r\n" ++ ("--" ++ w.boundary ++ "--" ++ "\r\n") := by
    apply String.ext
    simp [String.data_append]
  simp only [Writer.Close, closingBoundary]
  rw [List.append_assoc, ← toBytes_append, ← e]

/-- The bytes written for a file part and a form-field part, then `Close`. -/
theorem buf_two_parts (boundary fieldName fileName : String) (content : Bytes)
    (fieldName2 : String) (value : Bytes) :
    ((((((NewWriter boundary).CreateFormFile fieldName fileName).Write content).CreateFormField
        fieldName2).Write value).Close).buf =
      filePart boundary fieldName fileName content ++ fieldPart boundary fieldName2 value ++
        closingBoundary boundary := by
  rw [Close_buf]
  simp only [Writer.Write]
  rw [CreateFormField_buf _ _ rfl]
  simp only []
  rw [CreateFormFile_buf _ _ _ rfl]
  simp [NewWriter, filePart, fieldPart, Writer.CreateFormField, Writer.CreatePart,
    Writer.CreateFormFile]

/-- The bytes written for a file part alone, then `Close`. -/
theorem buf_one_part (boundary fieldName fileName : String) (content : Bytes) :
    ((((NewWriter boundary).CreateFormFile fieldName fileName).Write content).Close).buf =
      filePart boundary fieldName fileName content ++ [] ++ closingBoundary boundary := by
  rw [Close_buf]
  simp only [Writer.Write]
  rw [CreateFormFile_buf _ _ _ rfl]
  simp [NewWriter, filePart, Writer.CreateFormFile, Writer.CreatePart]

/-- C8. Whenever the body is built, it is the file part (field name
`part1FieldName`, file name `part1FileName`, content all the bytes of
`part1ValueReader`), then the form-field part (name `part2FieldName`, value
`part2Value`) exactly when `part2FieldName` is non-empty and `part2Value` is
non-empty, then the closing boundary; with `part2FieldName` empty it is the file
part and the closing boundary, whatever `part2Value` is. The body is built
whenever no step reports an error. In the headers the names stand between
double quotes as `mime/multipart` writes them: character by character, a
backslash as two backslashes, a double quote as backslash and double quote, CR
as `%0D`, LF as `%0A`, and a name without these four characters as it is. -/
theorem body_layout (env : WriterEnv) (part1FieldName part1FileName : String)
    (part1ValueReader : Reader) (part2FieldName : String) (part2Value : Bytes) :
    (∀ mw, buildBody env part1FieldName part1FileName part1ValueReader part2FieldName part2Value
        = .ok mw →
      mw.buf =
        filePart env.boundary part1FieldName part1FileName part1ValueReader.data ++
        (if part2FieldName ≠ "" ∧ part2Value.length > 0
          then fieldPart env.boundary part2FieldName part2Value else []) ++
        closingBoundary env.boundary) ∧
    (∀ mw, buildBody env part1FieldName part1FileName part1ValueReader part2FieldName part2Value
        = .ok mw →
      part2FieldName = "" →
      mw.buf = filePart env.boundary part1FieldName part1FileName part1ValueReader.data ++
        closingBoundary env.boundary) ∧
    (env.createFormFileErr = none → part1ValueReader.err = none →
      env.createFormFieldErr = none → env.part2WriteErr = none → env.closeErr = none →
      ∃ mw, buildBody env part1FieldName part1FileName part1ValueReader part2FieldName part2Value
        = .ok mw) ∧
    (∀ a b : String, escapeQuotes (a ++ b) = escapeQuotes a ++ escapeQuotes b) ∧
    escapeQuotes "\\" = "\\\\" ∧ escapeQuotes "\"" = "\\\"" ∧
    escapeQuotes "\r" = "%0D" ∧ escapeQuotes "\n" = "%0A" ∧
    (∀ name : String,
      (∀ c ∈ name.toList, c ≠ backslash ∧ c ≠ dquote ∧ c ≠ carriageReturn ∧ c ≠ lineFeed) →
      escapeQuotes name = name) := by
  have key : ∀ mw, buildBody env part1FieldName part1FileName part1ValueReader part2FieldName
      part2Value = .ok mw →
      mw.buf =
        filePart env.boundary part1FieldName part1FileName part1ValueReader.data ++
        (if part2FieldName ≠ "" ∧ part2Value.length > 0
          then fieldPart env.boundary part2FieldName part2Value else []) ++
        closingBoundary env.boundary := by
    intro mw hb
    unfold buildBody at hb
    split at hb
    · cases hb
    · split at hb
      · cases hb
      · split at hb
        · rename_i hcond
          split at hb
          · cases hb
          · split at hb
            · cases hb
            · split at hb
              · cases hb
              · cases hb
                rw [if_pos hcond]
                exact buf_two_parts _ _ _ _ _ _
        · rename_i hcond
          split at hb
          · cases hb
          · cases hb
            rw [if_neg hcond]
            exact buf_one_part _ _ _ _
  refine ⟨key, ?_, ?_, escapeQuotes_append, by decide, by decide, by decide, by decide, ?_⟩
  · intro mw hb hempty
    rw [key mw hb]
    simp [hempty]
  · intro h1 h2 h3 h4 h5
    simp only [buildBody, h1, h2, h3, h4, h5]
    split <;> exact ⟨_, rfl⟩
  · intro name h
    apply String.ext
    exact flatMap_escapeQuoteChar_plain name.toList h

/-- C8, at concrete calls. With `part2FieldName` empty the value is left out;
with both given the second part is there; the content is not text; a field name
with a double quote and a file name with CR, LF and a backslash are written
escaped; the bytes of a string are its UTF-8 encoding. -/
theorem body_layout_witness :
    (∃ mw, buildBody demoWriterEnv "media" "a.png" ⟨[0x89, 0x50, 0x4E, 0x47], none⟩ ""
        [0x68, 0x69] = .ok mw ∧
      mw.buf = filePart "B" "media" "a.png" [0x89, 0x50, 0x4E, 0x47] ++ closingBoundary "B" ∧
      mw.buf =
        toBytes "--B\r\nContent-Disposition: form-data; name=\"media\"; filename=\"a.png\"\r\nContent-Type: application/octet-stream\r\n\r\n"
          ++ [0x89, 0x50, 0x4E, 0x47]
          ++ [0x0D, 0x0A, 0x2D, 0x2D, 0x42, 0x2D, 0x2D, 0x0D, 0x0A]) ∧
    (∃ mw, buildBody demoWriterEnv "me\"dia" "a\r\nb\\c.png" ⟨[0x89, 0x50, 0x4E, 0x47], none⟩
        "description" [0x68, 0x69] = .ok mw ∧
      mw.buf = filePart "B" "me\"dia" "a\r\nb\\c.png" [0x89, 0x50, 0x4E, 0x47] ++
        fieldPart "B" "description" [0x68, 0x69] ++ closingBoundary "B" ∧
      mw.buf =
        toBytes "--B\r\nContent-Disposition: form-data; name=\"me\\\"dia\"; filename=\"a%0D%0Ab\\\\c.png\"\r\nContent-Type: application/octet-stream\r\n\r\n"
          ++ [0x89, 0x50, 0x4E, 0x47]
          ++ toBytes "\r\n--B\r\nContent-Disposition: form-data; name=\"description\"\r\n\r\n"
          ++ [0x68, 0x69] ++ toBytes "\r\n--B--\r\n") ∧
    toBytes "é€" = [0xC3, 0xA9, 0xE2, 0x82, 0xAC] :=
  ⟨⟨_, rfl,
      (body_layout demoWriterEnv "media" "a.png" ⟨[0x89, 0x50, 0x4E, 0x47], none⟩ ""
        [0x68, 0x69]).2.1 _ rfl rfl,
      rfl⟩,
   ⟨_, rfl,
      (body_layout demoWriterEnv "me\"dia" "a\r\nb\\c.png" ⟨[0x89, 0x50, 0x4E, 0x47], none⟩
        "description" [0x68, 0x69]).1 _ rfl,
      rfl⟩,
   rfl⟩

/-! ## The URL of a POST -/

/-- A character that is not escaped is not the space. -/
theorem ne_space_of_not_shouldEscape {c : Char} (h : shouldEscape c = false) : c ≠ ' ' := by
  intro hc
  rw [hc] at h
  revert h
  decide

/-- Escaping leaves a list of unreserved characters as it is. -/
theorem flatMap_escapeChar_unreserved (l : List Char) (h : ∀ c ∈ l, shouldEscape c = false) :
    l.flatMap escapeChar = l := by
  induction l with
  | nil => rfl
  | cons c t ih =>
    have hc : shouldEscape c = false := h c (List.mem_cons_self c t)
    have ht : ∀ d ∈ t, shouldEscape d = false := fun d hd => h d (List.mem_cons_of_mem c hd)
    simp [List.flatMap_cons, escapeChar, hc, ne_space_of_not_shouldEscape hc, ih ht]

/-- Escaping with `QueryEscape` leaves a string of unreserved characters as it is. -/
theorem QueryEscape_unreserved (s : String) (h : ∀ c ∈ s.toList, shouldEscape c = false) :
    QueryEscape s = s := by
  apply String.ext
  exact flatMap_escapeChar_unreserved s.toList h

/-- The shapes of the trace of a call, with where the tokens in the URLs come
from. -/
theorem upload_trace {σ R : Type} (codes : ErrCodes) (env : WriterEnv)
    (rt : ResponseType R) (clt : CorpClient σ)
    (incompleteURL part1FieldName part1FileName : String) (part1ValueReader : Reader)
    (part2FieldName : String) (part2Value : Bytes) (response : R) (world : σ) :
    ∃ out : Outcome σ R,
      (∀ fuel, UploadFromReader (fuel + 2) codes env rt clt incompleteURL part1FieldName
          part1FileName part1ValueReader part2FieldName part2Value response world = some out) ∧
      (out.trace = [] ∨ out.trace = [Event.Token] ∨
        ∃ mw token w1,
          buildBody env part1FieldName part1FileName part1ValueReader part2FieldName part2Value
            = .ok mw ∧
          clt.Token world = (.ok token, w1) ∧
          (out.trace = [Event.Token,
              Event.Post (finalURL incompleteURL token) mw.FormDataContentType mw.buf] ∨
           out.trace = [Event.Token,
              Event.Post (finalURL incompleteURL token) mw.FormDataContentType mw.buf,
              Event.TokenRefresh] ∨
           ∃ token2 w2 w3, clt.TokenRefresh w2 = (.ok token2, w3) ∧
            out.trace = [Event.Token,
              Event.Post (finalURL incompleteURL token) mw.FormDataContentType mw.buf,
              Event.TokenRefresh,
              Event.Post (finalURL incompleteURL token2) mw.FormDataContentType mw.buf])) := by
  simp only [UploadFromReader]
  rcases buildBody env part1FieldName part1FileName part1ValueReader part2FieldName
    part2Value with e | mw
  · exact ⟨_, fun _ => rfl, Or.inl rfl⟩
  rcases clt.Token world with ⟨e | token, w1⟩
  · exact ⟨_, fun _ => rfl, Or.inr (Or.inl rfl)⟩
  obtain ⟨out, ho, htr⟩ := @retryLoop_start σ R codes rt clt incompleteURL
    mw.FormDataContentType mw.buf 0 token w1 response [Event.Token]
  refine ⟨out, fun fuel => ?_, Or.inr (Or.inr ⟨mw, token, w1, rfl, rfl, ?_⟩)⟩
  · simp only []
    rw [retryLoop_fuel, ← ho]
  · rcases htr with h | h | ⟨t2, w2, w3, hr, h⟩
    · exact Or.inl h
    · exact Or.inr (Or.inl h)
    · exact Or.inr (Or.inr ⟨t2, w2, w3, hr, h⟩)

/-- C6, as stated, fails: with the access token `a+b/c` the POST goes to the URL
ending in `a%2Bb%2Fc`, which is not `incompleteURL` followed by the token. -/
theorem posted_url_counterexample :
    (UploadFromReader 2 demoCodes demoWriterEnv demoResponseType
        (scriptedClient (.ok "a+b/c") (.ok "t2")) "https://host/upload?access_token="
        "media" "a.png" ⟨[0x89, 0x50, 0x4E, 0x47], none⟩ "" [] ⟨0, ""⟩
        [ok200 "\x7b\"errcode\":0\x7d"]).map (fun out => out.trace)
      = some [Event.Token,
          Event.Post "https://host/upload?access_token=a%2Bb%2Fc"
            "multipart/form-data; boundary=B"
            (toBytes "--B\r\nContent-Disposition: form-data; name=\"media\"; filename=\"a.png\"\r\nContent-Type: application/octet-stream\r\n\r\n"
              ++ [0x89, 0x50, 0x4E, 0x47] ++ toBytes "\r\n--B--\r\n")] ∧
    "https://host/upload?access_token=a%2Bb%2Fc" ≠ "https://host/upload?access_token=" ++ "a+b/c" := by
  constructor
  · decide
  · decide

/-- C6, amended. Every POST of a call goes to `incompleteURL` followed by
`url.QueryEscape` of an access token, the one `Token` returned or the one
`TokenRefresh` returned; when no character of that token needs escaping (ASCII
letters, digits, `-`, `_`, `.`, `~`), this is `incompleteURL` followed by the
token itself. -/
theorem posted_url_escaped {σ R : Type} (codes : ErrCodes) (env : WriterEnv)
    (rt : ResponseType R) (clt : CorpClient σ)
    (incompleteURL part1FieldName part1FileName : String) (part1ValueReader : Reader)
    (part2FieldName : String) (part2Value : Bytes) (response : R) (world : σ) :
    ∃ out : Outcome σ R,
      (∀ fuel, UploadFromReader (fuel + 2) codes env rt clt incompleteURL part1FieldName
          part1FileName part1ValueReader part2FieldName part2Value response world = some out) ∧
      ∀ url contentType body, Event.Post url contentType body ∈ out.trace →
        ∃ token,
          ((∃ w1, clt.Token world = (.ok token, w1)) ∨
            (∃ w2 w3, clt.TokenRefresh w2 = (.ok token, w3))) ∧
          url = incompleteURL ++ QueryEscape token ∧
          ((∀ c ∈ token.toList, shouldEscape c = false) → url = incompleteURL ++ token) := by
  obtain ⟨out, ho, htr⟩ := upload_trace codes env rt clt incompleteURL
    part1FieldName part1FileName part1ValueReader part2FieldName part2Value response world
  refine ⟨out, ho, ?_⟩
  have fin : ∀ token : String,
      (∀ c ∈ token.toList, shouldEscape c = false) →
        finalURL incompleteURL token = incompleteURL ++ token := by
    intro token h
    rw [finalURL, QueryEscape_unreserved token h]
  intro url contentType body hmem
  rcases htr with h | h | ⟨mw, token, w1, _, ht, h | h | ⟨token2, w2, w3, hr, h⟩⟩
  · rw [h] at hmem
    cases hmem
  · rw [h] at hmem
    simp at hmem
  · rw [h] at hmem
    simp at hmem
    exact ⟨token, Or.inl ⟨w1, ht⟩, hmem.1, fun hc => hmem.1.trans (fin token hc)⟩
  · rw [h] at hmem
    simp at hmem
    exact ⟨token, Or.inl ⟨w1, ht⟩, hmem.1, fun hc => hmem.1.trans (fin token hc)⟩
  · rw [h] at hmem
    simp at hmem
    rcases hmem with hm | hm
    · exact ⟨token, Or.inl ⟨w1, ht⟩, hm.1, fun hc => hm.1.trans (fin token hc)⟩
    · exact ⟨token2, Or.inr ⟨w2, w3, hr⟩, hm.1, fun hc => hm.1.trans (fin token2 hc)⟩

/-- C6 amended, at a concrete call: both tokens are made of unreserved characters,
and every POST goes to `incompleteURL` followed by one of them. -/
theorem posted_url_escaped_witness :
    ∃ out : Outcome (List (Except Error HttpResponse)) DemoResponse,
      UploadFromReader 2 demoCodes demoWriterEnv demoResponseType
          (scriptedClient (.ok "tok-1_a.~") (.ok "t2")) "https://host/upload?access_token="
          "media" "a.png" ⟨[0x89, 0x50, 0x4E, 0x47], none⟩ "" [] ⟨0, ""⟩
          [ok200 "\x7b\"errcode\":42001\x7d", ok200 "\x7b\"errcode\":0\x7d"] = some out ∧
      ∀ url contentType body, Event.Post url contentType body ∈ out.trace →
        url = "https://host/upload?access_token=" ++ "tok-1_a.~" ∨
        url = "https://host/upload?access_token=" ++ "t2" := by
  obtain ⟨out, ho, hall⟩ := posted_url_escaped demoCodes demoWriterEnv demoResponseType
    (scriptedClient (.ok "tok-1_a.~") (.ok "t2")) "https://host/upload?access_token="
    "media" "a.png" ⟨[0x89, 0x50, 0x4E, 0x47], none⟩ "" [] ⟨0, ""⟩
    [ok200 "\x7b\"errcode\":42001\x7d", ok200 "\x7b\"errcode\":0\x7d"]
  refine ⟨out, ho 0, fun url contentType body hm => ?_⟩
  obtain ⟨token, hsrc, _, hun⟩ := hall url contentType body hm
  rcases hsrc with ⟨w1, ht⟩ | ⟨w2, w3, hr⟩
  · have e1 : token = "tok-1_a.~" := (Except.ok.inj (congrArg (fun x => x.1) ht)).symm
    subst e1
    exact Or.inl (hun (by decide))
  · have e2 : token = "t2" := (Except.ok.inj (congrArg (fun x => x.1) hr)).symm
    subst e2
    exact Or.inr (hun (by decide))

end Corp
